import Mathlib

/-!
Verification of the DevPlanner AI single-page interface
(source: `src/Note App/Traycer AI.tsx`).

The development shallowly embeds the two stateful pieces of the source:

* the Plan data model and its toggle operation (`handleToggleTask`);
* the Application Controller's submit lifecycle (`handleSubmit`),
  split at the `await fetch` point into a synchronous begin phase and a
  response-resolution phase, together with the JSON decoding the
  success path performs (`JSON.parse` modelled by `jsonParse`).

TypeScript string/union types become Lean inductives; `null`/optional
fields become `Option`; task ids (JS numbers used as integer ids) become
`Int`.
-/

namespace DevPlanner

/-- The `status` union type of a Task: `'todo' | 'done'`. -/
inductive Status where
  | todo
  | done
deriving DecidableEq, Repr

/-- The `Task` interface of the source: id, title, description, status,
and the two optional string fields `file_path` and `code_snippet`. -/
structure Task where
  id : Int
  title : String
  description : String
  status : Status
  file_path : Option String
  code_snippet : Option String
deriving DecidableEq, Repr

/-- The `Plan` interface of the source: a title and an ordered list of
tasks. -/
structure Plan where
  title : String
  tasks : List Task
deriving DecidableEq, Repr

/-- The pure Plan update performed by `handleToggleTask` on a non-null
plan: spread the plan, mapping over `tasks`; a task whose `id` equals
`taskId` gets `status: task.status === 'todo' ? 'done' : 'todo'`, any
other task is returned unchanged. -/
def toggleTask (plan : Plan) (taskId : Int) : Plan :=
  { plan with
    tasks := plan.tasks.map fun task =>
      if task.id = taskId then
        { task with status := if task.status = Status.todo then Status.done else Status.todo }
      else
        task }

/-- `handleToggleTask taskId` as the `setPlan` state updater of the
source: `prevPlan => { if (!prevPlan) return null; return {...} }`. -/
def handleToggleTask (taskId : Int) (prevPlan : Option Plan) : Option Plan :=
  match prevPlan with
  | none => none
  | some p => some (toggleTask p taskId)

/-!
## JSON values and `JSON.parse`

The success path of `handleSubmit` runs `JSON.parse(generatedJsonText)`
and stores the result with a type assertion but **no runtime shape
check**.  We therefore model parsed JSON as a dynamic value type and
`JSON.parse` as `jsonParse` below (a standard recursive-descent JSON
reader; numeric literals are kept as their lexemes, since nothing in
the application inspects parsed numbers).
-/

/-- A parsed JSON value.  `num` keeps the validated numeric lexeme. -/
inductive JsonValue where
  | null
  | bool (b : Bool)
  | num (lexeme : String)
  | str (s : String)
  | arr (elems : List JsonValue)
  | obj (fields : List (String × JsonValue))

/-- The left-brace character, `\x7b`. -/
def lbrace : Char := Char.ofNat 123

/-- The right-brace character, `\x7d`. -/
def rbrace : Char := Char.ofNat 125

/-- Skip JSON whitespace (space, tab, line feed, carriage return). -/
def skipWs : List Char → List Char
  | [] => []
  | c :: cs => if c = ' ' ∨ c = '\t' ∨ c = '\n' ∨ c = '\r' then skipWs cs else c :: cs

/-- Hexadecimal digit value, if any. -/
def hexVal? (c : Char) : Option Nat :=
  if c.isDigit then some (c.toNat - 48)
  else if 'a' ≤ c ∧ c ≤ 'f' then some (c.toNat - 87)
  else if 'A' ≤ c ∧ c ≤ 'F' then some (c.toNat - 55)
  else none

/-- Match a literal character sequence, returning the remaining input. -/
def stripLit : List Char → List Char → Option (List Char)
  | [], cs => some cs
  | _ :: _, [] => none
  | l :: ls, c :: cs => if c = l then stripLit ls cs else none

/-- Read the body of a JSON string (after the opening quote), handling
the standard escapes; raw control characters are rejected, as in
`JSON.parse`. -/
def strBody : Nat → List Char → List Char → Except String (String × List Char)
  | 0, _, _ => Except.error "Unterminated string in JSON"
  | Nat.succ fuel, acc, cs =>
    match cs with
    | [] => Except.error "Unterminated string in JSON"
    | c :: rest =>
      if c = '"' then Except.ok (String.mk acc.reverse, rest)
      else if c = '\\' then
        match rest with
        | [] => Except.error "Unterminated string in JSON"
        | e :: rest2 =>
          if e = '"' ∨ e = '\\' ∨ e = '/' then strBody fuel (e :: acc) rest2
          else if e = 'n' then strBody fuel ('\n' :: acc) rest2
          else if e = 't' then strBody fuel ('\t' :: acc) rest2
          else if e = 'r' then strBody fuel ('\r' :: acc) rest2
          else if e = 'b' then strBody fuel (Char.ofNat 8 :: acc) rest2
          else if e = 'f' then strBody fuel (Char.ofNat 12 :: acc) rest2
          else if e = 'u' then
            match rest2 with
            | h1 :: h2 :: h3 :: h4 :: rest3 =>
              match hexVal? h1, hexVal? h2, hexVal? h3, hexVal? h4 with
              | some a, some b, some c2, some d =>
                strBody fuel (Char.ofNat (((a * 16 + b) * 16 + c2) * 16 + d) :: acc) rest3
              | _, _, _, _ => Except.error "Bad Unicode escape in JSON"
            | _ => Except.error "Bad Unicode escape in JSON"
          else Except.error "Bad escaped character in JSON"
      else if c.toNat < 32 then Except.error "Bad control character in JSON string"
      else strBody fuel (c :: acc) rest

/-- Read an optional fraction part of a JSON number. -/
def scanFrac : List Char → Except String (List Char × List Char)
  | [] => Except.ok ([], [])
  | c :: rest =>
    if c = '.' then
      match rest.span Char.isDigit with
      | ([], _) => Except.error "Missing digits after decimal point in JSON number"
      | (ds, cs3) => Except.ok ('.' :: ds, cs3)
    else Except.ok ([], c :: rest)

/-- Read an optional exponent part of a JSON number. -/
def scanExp : List Char → Except String (List Char × List Char)
  | [] => Except.ok ([], [])
  | c :: rest =>
    if c = 'e' ∨ c = 'E' then
      let signAndRest : List Char × List Char :=
        match rest with
        | s :: r2 => if s = '+' ∨ s = '-' then ([s], r2) else ([], rest)
        | [] => ([], [])
      match signAndRest.snd.span Char.isDigit with
      | ([], _) => Except.error "Missing digits in JSON number exponent"
      | (ds, cs3) => Except.ok (c :: (signAndRest.fst ++ ds), cs3)
    else Except.ok ([], c :: rest)

/-- Scan a JSON numeric literal, returning its lexeme; leading zeros are
rejected, as in `JSON.parse`. -/
def scanNumber (cs : List Char) : Except String (String × List Char) :=
  let signAndRest : List Char × List Char :=
    match cs with
    | c :: rest => if c = '-' then (['-'], rest) else ([], cs)
    | [] => ([], [])
  match signAndRest.snd.span Char.isDigit with
  | ([], _) => Except.error "Unexpected token in JSON: malformed number"
  | (ip, cs2) =>
    if 1 < ip.length ∧ ip.head? = some '0' then
      Except.error "Unexpected number with leading zero in JSON"
    else
      match scanFrac cs2 with
      | Except.error e => Except.error e
      | Except.ok (fp, cs3) =>
        match scanExp cs3 with
        | Except.error e => Except.error e
        | Except.ok (ep, cs4) =>
          Except.ok (String.mk (signAndRest.fst ++ ip ++ fp ++ ep), cs4)

mutual

/-- Parse one JSON value from the input. -/
def parseVal : Nat → List Char → Except String (JsonValue × List Char)
  | 0, _ => Except.error "JSON input too deeply nested"
  | Nat.succ fuel, cs =>
    match skipWs cs with
    | [] => Except.error "Unexpected end of JSON input"
    | c :: rest =>
      if c = lbrace then parseObj fuel rest
      else if c = '[' then parseArr fuel rest
      else if c = '"' then
        match strBody (rest.length + 1) [] rest with
        | Except.error e => Except.error e
        | Except.ok (s, rest2) => Except.ok (JsonValue.str s, rest2)
      else if c = 'n' then
        match stripLit ['u', 'l', 'l'] rest with
        | some rest2 => Except.ok (JsonValue.null, rest2)
        | none => Except.error "Unexpected token in JSON"
      else if c = 't' then
        match stripLit ['r', 'u', 'e'] rest with
        | some rest2 => Except.ok (JsonValue.bool true, rest2)
        | none => Except.error "Unexpected token in JSON"
      else if c = 'f' then
        match stripLit ['a', 'l', 's', 'e'] rest with
        | some rest2 => Except.ok (JsonValue.bool false, rest2)
        | none => Except.error "Unexpected token in JSON"
      else if c = '-' ∨ c.isDigit then
        match scanNumber (c :: rest) with
        | Except.error e => Except.error e
        | Except.ok (lex, rest2) => Except.ok (JsonValue.num lex, rest2)
      else Except.error "Unexpected token in JSON"

/-- Parse the inside of a JSON array (after `[`). -/
def parseArr : Nat → List Char → Except String (JsonValue × List Char)
  | 0, _ => Except.error "JSON input too deeply nested"
  | Nat.succ fuel, cs =>
    match skipWs cs with
    | [] => Except.error "Unexpected end of JSON input"
    | c :: rest =>
      if c = ']' then Except.ok (JsonValue.arr [], rest)
      else parseArrLoop fuel [] (c :: rest)

/-- Parse the elements of a non-empty JSON array. -/
def parseArrLoop : Nat → List JsonValue → List Char → Except String (JsonValue × List Char)
  | 0, _, _ => Except.error "JSON input too deeply nested"
  | Nat.succ fuel, acc, cs =>
    match parseVal fuel cs with
    | Except.error e => Except.error e
    | Except.ok (v, rest) =>
      match skipWs rest with
      | [] => Except.error "Unexpected end of JSON input"
      | c :: rest2 =>
        if c = ',' then parseArrLoop fuel (v :: acc) rest2
        else if c = ']' then Except.ok (JsonValue.arr (v :: acc).reverse, rest2)
        else Except.error "Expected comma or closing bracket in JSON array"

/-- Parse the inside of a JSON object (after the opening brace). -/
def parseObj : Nat → List Char → Except String (JsonValue × List Char)
  | 0, _ => Except.error "JSON input too deeply nested"
  | Nat.succ fuel, cs =>
    match skipWs cs with
    | [] => Except.error "Unexpected end of JSON input"
    | c :: rest =>
      if c = rbrace then Except.ok (JsonValue.obj [], rest)
      else parseObjLoop fuel [] (c :: rest)

/-- Parse the members of a non-empty JSON object. -/
def parseObjLoop : Nat → List (String × JsonValue) → List Char →
    Except String (JsonValue × List Char)
  | 0, _, _ => Except.error "JSON input too deeply nested"
  | Nat.succ fuel, acc, cs =>
    match skipWs cs with
    | [] => Except.error "Unexpected end of JSON input"
    | c :: rest =>
      if c = '"' then
        match strBody (rest.length + 1) [] rest with
        | Except.error e => Except.error e
        | Except.ok (k, rest2) =>
          match skipWs rest2 with
          | [] => Except.error "Unexpected end of JSON input"
          | c2 :: rest3 =>
            if c2 = ':' then
              match parseVal fuel rest3 with
              | Except.error e => Except.error e
              | Except.ok (v, rest4) =>
                match skipWs rest4 with
                | [] => Except.error "Unexpected end of JSON input"
                | c3 :: rest5 =>
                  if c3 = ',' then parseObjLoop fuel ((k, v) :: acc) rest5
                  else if c3 = rbrace then
                    Except.ok (JsonValue.obj ((k, v) :: acc).reverse, rest5)
                  else Except.error "Expected comma or closing brace in JSON object"
            else Except.error "Expected colon in JSON object"
      else Except.error "Expected property name in JSON object"

end

/-- `JSON.parse`: parse a complete JSON document, requiring only
whitespace after the value. -/
def jsonParse (s : String) : Except String JsonValue :=
  match parseVal (4 * s.length + 8) s.data with
  | Except.error e => Except.error e
  | Except.ok (v, rest) =>
    match skipWs rest with
    | [] => Except.ok v
    | _ => Except.error "Unexpected non-whitespace character after JSON data"

/-!
## The Application Controller

The controller state is the four `useState` hooks of `App`.  Because
`handleSubmit` stores `JSON.parse`'s result without any shape check,
the `plan` slot holds a raw `JsonValue` here (see C9); a conforming
value corresponds to a `Plan` via `specPlanOfJson` below.

`handleSubmit` is split at its `await fetch` point: `handleSubmit`
models the synchronous prefix (the guard and the three state writes),
and `handleSubmitResponse` models everything after the response
arrives, including the `finally \x7b setIsLoading(false) \x7d`.
-/

/-- The controller state: the `prompt`, `plan`, `isLoading` and `error`
hooks of `App`. -/
structure AppState where
  prompt : String
  plan : Option JsonValue
  isLoading : Bool
  error : Option String

/-- One part of the response envelope: `\x7b text?: string \x7d`. -/
structure Part where
  text : Option String

/-- `content` of a candidate: its `parts` array. -/
structure Content where
  parts : List Part

/-- One candidate of the response envelope. -/
structure Candidate where
  content : Option Content

/-- The response envelope: optional `candidates` array. -/
structure Envelope where
  candidates : Option (List Candidate)

/-- An HTTP response as `handleSubmit` observes it: `ok`, `status`,
`statusText`, and the JSON body (the envelope). -/
structure HttpResponse where
  ok : Bool
  status : Nat
  statusText : String
  body : Envelope

/-- JavaScript whitespace as recognised by `String.prototype.trim`
(the ASCII whitespace characters together with no-break space and the
byte-order mark; the rarer Unicode space separators are omitted as no
reasoning here depends on them). -/
def isJsWs (c : Char) : Bool :=
  c == ' ' || c == '\t' || c == '\n' || c == '\r' ||
  c == Char.ofNat 11 || c == Char.ofNat 12 || c == Char.ofNat 160 || c == Char.ofNat 65279

/-- The `prompt.trim()` builtin: drop leading and trailing JavaScript
whitespace. -/
def jsTrim (s : String) : String :=
  String.mk (((s.data.dropWhile isJsWs).reverse.dropWhile isJsWs).reverse)

/-- The synchronous prefix of `handleSubmit`:
`if (!prompt.trim() || isLoading) return;` then
`setIsLoading(true); setError(null); setPlan(null);`.  The Boolean
records whether a network request is issued. -/
def handleSubmit (st : AppState) : AppState × Bool :=
  if jsTrim st.prompt = "" ∨ st.isLoading = true then (st, false)
  else ({ st with isLoading := true, error := none, plan := none }, true)

/-- The `err.message || "An unexpected error occurred. Please try
again."` fallback of the catch block (the empty string is falsy). -/
def errMessageOr (m : String) : String :=
  if m = "" then "An unexpected error occurred. Please try again." else m

/-- The guarded extraction
`result.candidates?.[0]` / `candidate.content?.parts?.[0]?.text`,
including JavaScript truthiness: an empty `text` is falsy and is
treated as absent. -/
def extractText (env : Envelope) : Option String :=
  match env.candidates with
  | none => none
  | some cands =>
    match cands.head? with
    | none => none
    | some cand =>
      match cand.content with
      | none => none
      | some ct =>
        match ct.parts.head? with
        | none => none
        | some p =>
          match p.text with
          | none => none
          | some t => if t = "" then none else some t

/-- The continuation of `handleSubmit` once the response has arrived:
the `!response.ok` throw, the envelope check, `JSON.parse`, the catch
block, and the `finally` that clears `isLoading`. -/
def handleSubmitResponse (st : AppState) (resp : HttpResponse) : AppState :=
  let apiErrorMsg := "API error: " ++ toString resp.status ++ " " ++ resp.statusText
  let st2 :=
    if resp.ok = false then
      { st with error := some (errMessageOr apiErrorMsg) }
    else
      match extractText resp.body with
      | none =>
        { st with error := some (errMessageOr "Invalid response structure from AI model.") }
      | some t =>
        match jsonParse t with
        | Except.error e => { st with error := some (errMessageOr e) }
        | Except.ok v => { st with plan := some v }
  { st2 with isLoading := false }

/-- The request lifecycle of the spec: idle, loading, success, error. -/
inductive Lifecycle where
  | idle
  | loading
  | success
  | error
deriving DecidableEq, Repr

/-- The lifecycle state the interface displays, as derived from the
hooks by `App`'s render: the spinner while `isLoading`, the error box
when `error` is set, the plan when `plan` is set, the placeholder
otherwise. -/
def lifecycleOf (st : AppState) : Lifecycle :=
  if st.isLoading then Lifecycle.loading
  else
    match st.error with
    | some _ => Lifecycle.error
    | none =>
      match st.plan with
      | some _ => Lifecycle.success
      | none => Lifecycle.idle

/-!
## Event-level view for the concurrency guard

For C5 we run the controller over a sequence of events and track the
number of outstanding network requests explicitly: a submit increments
it exactly when `handleSubmit` issues a request, a response consumes
one, and editing the prompt touches neither.
-/

/-- An interface event: editing the prompt, a form submit, or the
arrival of a response to an outstanding request. -/
inductive Event where
  | setPrompt (p : String)
  | submit
  | response (r : HttpResponse)

/-- The controller state together with the number of outstanding
network requests. -/
structure SysState where
  app : AppState
  outstanding : Nat

/-- One event step.  A response event with nothing outstanding cannot
occur and is a no-op. -/
def stepSys (s : SysState) (e : Event) : SysState :=
  match e with
  | Event.setPrompt p => { s with app := { s.app with prompt := p } }
  | Event.submit =>
    let r := handleSubmit s.app
    { app := r.fst, outstanding := s.outstanding + (if r.snd then 1 else 0) }
  | Event.response r =>
    if s.outstanding = 0 then s
    else { app := handleSubmitResponse s.app r, outstanding := s.outstanding - 1 }

/-- The initial hook values: empty prompt, no plan, not loading, no
error, nothing outstanding. -/
def sysInit : SysState := ⟨⟨"", none, false, none⟩, 0⟩

/-- Run the controller over a sequence of events. -/
def runSys (evs : List Event) : SysState := evs.foldl stepSys sysInit

/-!
## The Plan shape of the spec

`specPlanOfJson` is written from the spec's section 3 data-model
description (not from the source, which performs no such check): it
decodes a `JsonValue` into a `Plan` exactly when the value has the
Plan shape.  It is used to compare the controller's actual behaviour
with the spec's parse-failure contract (C9).
-/

/-- Spec section 3: `status` is `"todo"` or `"done"`. -/
def specStatusOfJson : JsonValue → Option Status
  | JsonValue.str s =>
    if s = "todo" then some Status.todo
    else if s = "done" then some Status.done
    else none
  | _ => none

/-- Look up a key in a JSON object's fields. -/
def jsonField (fs : List (String × JsonValue)) (k : String) : Option JsonValue :=
  match fs.find? (fun p => p.fst == k) with
  | some p => some p.snd
  | none => none

/-- A JSON string value, if any. -/
def jsonStr? : JsonValue → Option String
  | JsonValue.str s => some s
  | _ => none

/-- A JSON integer value, if any. -/
def jsonInt? : JsonValue → Option Int
  | JsonValue.num lex => lex.toInt?
  | _ => none

/-- Spec section 3: an optional string field — absent is fine, present
must be a string. -/
def specOptStrField (fs : List (String × JsonValue)) (k : String) : Option (Option String) :=
  match jsonField fs k with
  | none => some none
  | some (JsonValue.str s) => some (some s)
  | some _ => none

/-- Spec section 3: a Task is an object with integer `id`, string
`title` and `description`, a valid `status`, and optional string
`file_path` and `code_snippet`. -/
def specTaskOfJson : JsonValue → Option Task
  | JsonValue.obj fs => do
    let idv ← jsonField fs "id" >>= jsonInt?
    let title ← jsonField fs "title" >>= jsonStr?
    let desc ← jsonField fs "description" >>= jsonStr?
    let stat ← jsonField fs "status" >>= specStatusOfJson
    let fp ← specOptStrField fs "file_path"
    let cs ← specOptStrField fs "code_snippet"
    pure ⟨idv, title, desc, stat, fp, cs⟩
  | _ => none

/-- Spec section 3: a Plan is an object with a string `title` and an
array `tasks` of Tasks. -/
def specPlanOfJson : JsonValue → Option Plan
  | JsonValue.obj fs => do
    let title ← jsonField fs "title" >>= jsonStr?
    let tasksJson ← jsonField fs "tasks"
    match tasksJson with
    | JsonValue.arr elems => do
      let tasks ← elems.mapM specTaskOfJson
      pure ⟨title, tasks⟩
    | _ => none
  | _ => none

end DevPlanner


namespace DevPlanner

/-- C1 -- For every Plan whose task ids are unique and every task id
present in it (given here as the index `j` of a task whose id is `i`),
`toggleTask` flips exactly that task's status, keeps its other fields,
keeps every other task, and keeps the plan title. -/
theorem toggleTask_flips_exactly_one (P : Plan) (i : Int)
    (huniq : P.tasks.Pairwise (fun a b => a.id ≠ b.id))
    (j : Nat) (hj : j < P.tasks.length)
    (hid : (P.tasks.get ⟨j, hj⟩).id = i) :
    (toggleTask P i).title = P.title ∧
    (toggleTask P i).tasks.length = P.tasks.length ∧
    (∀ hj2 : j < (toggleTask P i).tasks.length,
      (toggleTask P i).tasks.get ⟨j, hj2⟩ =
        { P.tasks.get ⟨j, hj⟩ with
          status := if (P.tasks.get ⟨j, hj⟩).status = Status.todo
                    then Status.done else Status.todo }) ∧
    (∀ k, ∀ hk : k < P.tasks.length, ∀ hk2 : k < (toggleTask P i).tasks.length,
      k ≠ j → (toggleTask P i).tasks.get ⟨k, hk2⟩ = P.tasks.get ⟨k, hk⟩) := by
  refine ⟨rfl, by simp [toggleTask], ?_, ?_⟩
  · intro hj2
    simp only [toggleTask, List.get_eq_getElem, List.getElem_map]
    simp only [List.get_eq_getElem] at hid
    simp [hid]
  · intro k hk hk2 hkj
    simp only [toggleTask, List.get_eq_getElem, List.getElem_map]
    have hne : (P.tasks.get ⟨k, hk⟩).id ≠ i := by
      rw [List.pairwise_iff_get] at huniq
      rcases Nat.lt_or_ge k j with hlt | hge
      · have := huniq ⟨k, hk⟩ ⟨j, hj⟩ hlt
        simp only [List.get_eq_getElem] at this hid
        rw [← hid]
        exact this
      · have hjk : j < k := Nat.lt_of_le_of_ne hge (fun h => hkj h.symm)
        have := huniq ⟨j, hj⟩ ⟨k, hk⟩ hjk
        simp only [List.get_eq_getElem] at this hid
        intro hcontra
        exact this (hid.trans hcontra.symm)
    simp only [List.get_eq_getElem] at hne
    simp [hne]

/-- Witness for C1 on a concrete two-task plan. -/
theorem toggleTask_flips_exactly_one_witness :
    let t1 : Task := ⟨1, "a", "d1", Status.todo, none, none⟩
    let t2 : Task := ⟨2, "b", "d2", Status.done, none, none⟩
    let P : Plan := ⟨"plan", [t1, t2]⟩
    (toggleTask P 1).title = P.title ∧
    (toggleTask P 1).tasks.length = P.tasks.length ∧
    (∀ hj2 : 0 < (toggleTask P 1).tasks.length,
      (toggleTask P 1).tasks.get ⟨0, hj2⟩ =
        { P.tasks.get ⟨0, by decide⟩ with
          status := if (P.tasks.get ⟨0, by decide⟩).status = Status.todo
                    then Status.done else Status.todo }) ∧
    (∀ k, ∀ hk : k < P.tasks.length, ∀ hk2 : k < (toggleTask P 1).tasks.length,
      k ≠ 0 → (toggleTask P 1).tasks.get ⟨k, hk2⟩ = P.tasks.get ⟨k, hk⟩) := by
  exact toggleTask_flips_exactly_one _ 1 (by decide) 0 (by decide) (by decide)

/-- C2 -- For every Plan and every task id matching no task, `toggleTask`
returns a Plan equal to the input. -/
theorem toggleTask_absent_id_noop (P : Plan) (i : Int)
    (habs : ∀ t ∈ P.tasks, t.id ≠ i) :
    toggleTask P i = P := by
  unfold toggleTask
  have : P.tasks.map (fun task =>
      if task.id = i then
        { task with status := if task.status = Status.todo then Status.done else Status.todo }
      else
        task) = P.tasks := by
    calc P.tasks.map _ = P.tasks.map id :=
          List.map_congr_left (fun t ht => by simp [habs t ht])
      _ = P.tasks := List.map_id P.tasks
  rw [this]

/-- Witness for C2: toggling id 3 in a plan whose only task has id 1. -/
theorem toggleTask_absent_id_noop_witness :
    toggleTask ⟨"p", [⟨1, "a", "d", Status.todo, none, none⟩]⟩ 3 =
      ⟨"p", [⟨1, "a", "d", Status.todo, none, none⟩]⟩ := by
  exact toggleTask_absent_id_noop _ 3 (by decide)

/-- C3 -- Toggling the same id twice is an involution: the original Plan
is recovered, for every Plan and every id. -/
theorem toggleTask_involution (P : Plan) (i : Int) :
    toggleTask (toggleTask P i) i = P := by
  unfold toggleTask
  cases P with
  | mk title tasks =>
    simp only [List.map_map, Plan.mk.injEq, true_and]
    have : ∀ t : Task,
        ((fun task =>
          if task.id = i then
            { task with status := if task.status = Status.todo then Status.done else Status.todo }
          else task) ∘
         (fun task =>
          if task.id = i then
            { task with status := if task.status = Status.todo then Status.done else Status.todo }
          else task)) t = t := by
      intro t
      cases t with
      | mk tid ttitle tdesc tstatus tfp tcs =>
        by_cases h : tid = i
        · cases tstatus <;> simp [h]
        · simp [h]
    calc tasks.map _ = tasks.map id := List.map_congr_left (fun t _ => this t)
      _ = tasks := List.map_id tasks

/-- C10 -- When no Plan is stored, `handleToggleTask` with any id leaves
the state empty (the updater returns `null` on a `null` previous plan). -/
theorem handleToggleTask_none (i : Int) : handleToggleTask i none = none := rfl

/-- Appending to a non-empty string yields a non-empty string. -/
lemma append_ne_empty_left (a b : String) (h : a ≠ "") : a ++ b ≠ "" := by
  intro hc
  apply h
  have hd := congrArg String.data hc
  rw [String.data_append] at hd
  exact String.ext ((List.append_eq_nil.mp hd).1)

/-- The catch-block fallback never stores an empty message. -/
lemma errMessageOr_ne_empty (m : String) : errMessageOr m ≠ "" := by
  unfold errMessageOr
  split
  · decide
  · assumption

/-- The fallback is the identity on non-empty messages. -/
lemma errMessageOr_of_ne (m : String) (h : m ≠ "") : errMessageOr m = m := by
  unfold errMessageOr
  rw [if_neg h]

/-- The `finally` block always clears the loading flag. -/
lemma handleSubmitResponse_isLoading (st : AppState) (resp : HttpResponse) :
    (handleSubmitResponse st resp).isLoading = false := rfl

/-- Whenever resolving a response stores an error message, either the
message was already stored, or the plan slot is untouched and the
message is non-empty. -/
lemma handleSubmitResponse_error_spec (st : AppState) (resp : HttpResponse) (msg : String)
    (h : (handleSubmitResponse st resp).error = some msg) :
    st.error = some msg ∨
      ((handleSubmitResponse st resp).plan = st.plan ∧ msg ≠ "") := by
  unfold handleSubmitResponse at h ⊢
  cases hok : resp.ok with
  | false =>
    simp only [hok] at h ⊢
    simp at h
    exact Or.inr ⟨rfl, h ▸ errMessageOr_ne_empty _⟩
  | true =>
    simp only [hok] at h ⊢
    cases het : extractText resp.body with
    | none =>
      simp only [het] at h ⊢
      simp at h
      exact Or.inr ⟨rfl, h ▸ errMessageOr_ne_empty _⟩
    | some t =>
      simp only [het] at h ⊢
      cases hjp : jsonParse t with
      | error e =>
        simp only [hjp] at h ⊢
        simp at h
        exact Or.inr ⟨rfl, h ▸ errMessageOr_ne_empty _⟩
      | ok v =>
        simp only [hjp] at h ⊢
        simp at h
        exact Or.inl h

/-- C4 -- Submitting with a prompt that is blank after trimming is a
complete no-op: no request is issued, the state (hence the lifecycle
state, the stored Plan and the error message) is unchanged. -/
theorem handleSubmit_blank_noop (st : AppState) (h : jsTrim st.prompt = "") :
    handleSubmit st = (st, false) ∧
    lifecycleOf (handleSubmit st).fst = lifecycleOf st := by
  have heq : handleSubmit st = (st, false) := by
    unfold handleSubmit
    rw [if_pos (Or.inl h)]
  exact ⟨heq, by rw [heq]⟩

/-- Witness for C4: a whitespace-only prompt is ignored even with an
error on display. -/
theorem handleSubmit_blank_noop_witness :
    handleSubmit ⟨"   ", none, false, some "boom"⟩ = (⟨"   ", none, false, some "boom"⟩, false) ∧
    lifecycleOf (handleSubmit ⟨"   ", none, false, some "boom"⟩).fst =
      lifecycleOf ⟨"   ", none, false, some "boom"⟩ :=
  handleSubmit_blank_noop ⟨"   ", none, false, some "boom"⟩ (by decide)

/-- One event step preserves the bookkeeping between the loading flag
and the number of outstanding requests. -/
lemma stepSys_outstanding_inv (s : SysState)
    (h : s.outstanding = if s.app.isLoading then 1 else 0) (e : Event) :
    (stepSys s e).outstanding = if (stepSys s e).app.isLoading then 1 else 0 := by
  cases e with
  | setPrompt p => simpa [stepSys] using h
  | submit =>
    by_cases hl : s.app.isLoading = true
    · have hsub : handleSubmit s.app = (s.app, false) := by
        unfold handleSubmit
        rw [if_pos (Or.inr hl)]
      simpa [stepSys, hsub] using h
    · by_cases hp : jsTrim s.app.prompt = ""
      · have hsub : handleSubmit s.app = (s.app, false) := by
          unfold handleSubmit
          rw [if_pos (Or.inl hp)]
        simpa [stepSys, hsub] using h
      · have hsub : handleSubmit s.app =
            ({ s.app with isLoading := true, error := none, plan := none }, true) := by
          unfold handleSubmit
          rw [if_neg]
          intro hcon
          cases hcon with
          | inl hc => exact hp hc
          | inr hc => exact hl hc
        have hl0 : s.app.isLoading = false := by
          cases hv : s.app.isLoading
          · rfl
          · exact absurd hv hl
        rw [hl0] at h
        simp only [if_false, Bool.false_eq_true] at h
        simp [stepSys, hsub, h]
  | response r =>
    by_cases h0 : s.outstanding = 0
    · simpa [stepSys, h0] using h
    · have hl : s.app.isLoading = true := by
        cases hv : s.app.isLoading
        · rw [hv] at h
          simp only [Bool.false_eq_true, if_false] at h
          exact absurd h h0
        · rfl
      rw [hl] at h
      simp only [if_true] at h
      simp [stepSys, h0, handleSubmitResponse_isLoading, h]

/-- The bookkeeping invariant holds along every run. -/
lemma runSys_outstanding_inv (evs : List Event) :
    ∀ s : SysState, s.outstanding = (if s.app.isLoading then 1 else 0) →
      (evs.foldl stepSys s).outstanding =
        if (evs.foldl stepSys s).app.isLoading then 1 else 0 := by
  induction evs with
  | nil => intro s h; simpa using h
  | cons e evs ih =>
    intro s h
    simp only [List.foldl_cons]
    exact ih _ (stepSys_outstanding_inv s h e)

/-- C5 -- Submitting while a request is in flight is a no-op issuing no
second request, and along every event sequence from the initial state
at most one request is outstanding. -/
theorem handleSubmit_loading_noop (st : AppState) (h : st.isLoading = true)
    (evs : List Event) :
    handleSubmit st = (st, false) ∧ (runSys evs).outstanding ≤ 1 := by
  constructor
  · unfold handleSubmit
    rw [if_pos (Or.inr h)]
  · have hinv := runSys_outstanding_inv evs sysInit (by simp [sysInit])
    unfold runSys
    rw [hinv]
    split
    · exact Nat.le_refl 1
    · exact Nat.zero_le 1

/-- Witness for C5: a loading state ignores a submit, and a double
submit run leaves at most one request outstanding. -/
theorem handleSubmit_loading_noop_witness :
    handleSubmit ⟨"x", none, true, none⟩ = (⟨"x", none, true, none⟩, false) ∧
    (runSys [Event.setPrompt "x", Event.submit, Event.submit]).outstanding ≤ 1 :=
  handleSubmit_loading_noop ⟨"x", none, true, none⟩ rfl
    [Event.setPrompt "x", Event.submit, Event.submit]

/-- C6 -- An accepted submission issues the request, clears the stored
Plan and error on entering loading, and whenever the request ends with
an error message the stored Plan is still empty and the message is
non-empty. -/
theorem handleSubmit_accept_clears (st : AppState) (resp : HttpResponse)
    (hp : jsTrim st.prompt ≠ "") (hl : st.isLoading = false) :
    (handleSubmit st).snd = true ∧
    (handleSubmit st).fst.plan = none ∧
    (handleSubmit st).fst.error = none ∧
    (handleSubmit st).fst.isLoading = true ∧
    (∀ msg, (handleSubmitResponse (handleSubmit st).fst resp).error = some msg →
      (handleSubmitResponse (handleSubmit st).fst resp).plan = none ∧ msg ≠ "") := by
  have hsub : handleSubmit st =
      ({ st with isLoading := true, error := none, plan := none }, true) := by
    unfold handleSubmit
    rw [if_neg]
    intro hcon
    cases hcon with
    | inl hc => exact hp hc
    | inr hc => rw [hl] at hc; exact Bool.false_ne_true hc
  rw [hsub]
  refine ⟨rfl, rfl, rfl, rfl, ?_⟩
  intro msg hmsg
  rcases handleSubmitResponse_error_spec _ resp msg hmsg with hold | ⟨hplan, hne⟩
  · exact absurd hold (by simp)
  · exact ⟨hplan, hne⟩

/-- Witness for C6 on a state holding an old plan and an old error, and
a failing response. -/
theorem handleSubmit_accept_clears_witness :
    (handleSubmit ⟨"hi", some JsonValue.null, false, some "old"⟩).snd = true ∧
    (handleSubmit ⟨"hi", some JsonValue.null, false, some "old"⟩).fst.plan = none ∧
    (handleSubmit ⟨"hi", some JsonValue.null, false, some "old"⟩).fst.error = none ∧
    (handleSubmit ⟨"hi", some JsonValue.null, false, some "old"⟩).fst.isLoading = true ∧
    (∀ msg,
      (handleSubmitResponse (handleSubmit ⟨"hi", some JsonValue.null, false, some "old"⟩).fst
        ⟨false, 500, "Internal Server Error", ⟨none⟩⟩).error = some msg →
      (handleSubmitResponse (handleSubmit ⟨"hi", some JsonValue.null, false, some "old"⟩).fst
        ⟨false, 500, "Internal Server Error", ⟨none⟩⟩).plan = none ∧ msg ≠ "") :=
  handleSubmit_accept_clears ⟨"hi", some JsonValue.null, false, some "old"⟩
    ⟨false, 500, "Internal Server Error", ⟨none⟩⟩ (by decide) rfl

/-- C7 -- A response with a non-success transport status ends in the
error lifecycle state with a message carrying the status code and the
reason phrase. -/
theorem handleSubmitResponse_transport_failure (st : AppState) (resp : HttpResponse)
    (h : resp.ok = false) :
    ∃ msg, (handleSubmitResponse st resp).error = some msg ∧
      (∃ a b, msg = a ++ toString resp.status ++ b) ∧
      (∃ c d, msg = c ++ resp.statusText ++ d) ∧
      lifecycleOf (handleSubmitResponse st resp) = Lifecycle.error := by
  have hne : ("API error: " ++ toString resp.status ++ " " ++ resp.statusText) ≠ "" :=
    append_ne_empty_left _ _
      (append_ne_empty_left _ _ (append_ne_empty_left _ _ (by decide)))
  have hmsg : (handleSubmitResponse st resp).error =
      some ("API error: " ++ toString resp.status ++ " " ++ resp.statusText) := by
    unfold handleSubmitResponse
    simp [h, errMessageOr_of_ne _ hne]
  refine ⟨"API error: " ++ toString resp.status ++ " " ++ resp.statusText, hmsg, ?_, ?_, ?_⟩
  · exact ⟨"API error: ", " " ++ resp.statusText, by rw [String.append_assoc]⟩
  · exact ⟨"API error: " ++ toString resp.status ++ " ", "",
      by rw [String.append_empty]⟩
  · unfold lifecycleOf
    rw [handleSubmitResponse_isLoading, hmsg]
    simp

/-- Witness for C7: a 500 response yields an error message containing
"500". -/
theorem handleSubmitResponse_transport_failure_witness :
    ∃ msg,
      (handleSubmitResponse ⟨"hi", none, true, none⟩
        ⟨false, 500, "Internal Server Error", ⟨none⟩⟩).error = some msg ∧
      (∃ a b, msg = a ++ "500" ++ b) ∧
      (∃ c d, msg = c ++ "Internal Server Error" ++ d) ∧
      lifecycleOf (handleSubmitResponse ⟨"hi", none, true, none⟩
        ⟨false, 500, "Internal Server Error", ⟨none⟩⟩) = Lifecycle.error :=
  handleSubmitResponse_transport_failure ⟨"hi", none, true, none⟩
    ⟨false, 500, "Internal Server Error", ⟨none⟩⟩ rfl

/-- C8 -- A successful-transport response whose envelope lacks the
nested text payload ends in the error lifecycle state with exactly the
message "Invalid response structure from AI model.". -/
theorem handleSubmitResponse_invalid_structure (st : AppState) (resp : HttpResponse)
    (hok : resp.ok = true) (ht : extractText resp.body = none) :
    (handleSubmitResponse st resp).error = some "Invalid response structure from AI model." ∧
    lifecycleOf (handleSubmitResponse st resp) = Lifecycle.error := by
  have hmsg : (handleSubmitResponse st resp).error =
      some "Invalid response structure from AI model." := by
    unfold handleSubmitResponse
    simp [hok, ht,
      errMessageOr_of_ne "Invalid response structure from AI model." (by decide)]
  refine ⟨hmsg, ?_⟩
  unfold lifecycleOf
  rw [handleSubmitResponse_isLoading, hmsg]
  simp

/-- Witness for C8: an envelope with no candidates. -/
theorem handleSubmitResponse_invalid_structure_witness :
    (handleSubmitResponse ⟨"hi", none, true, none⟩ ⟨true, 200, "OK", ⟨none⟩⟩).error =
      some "Invalid response structure from AI model." ∧
    lifecycleOf (handleSubmitResponse ⟨"hi", none, true, none⟩ ⟨true, 200, "OK", ⟨none⟩⟩) =
      Lifecycle.error :=
  handleSubmitResponse_invalid_structure ⟨"hi", none, true, none⟩ ⟨true, 200, "OK", ⟨none⟩⟩
    rfl rfl

/-- C9 (amended) -- For a successful-transport response with a text
payload: if the payload is not valid JSON the controller ends in the
error state carrying the decoding failure description, while any valid
JSON value is stored as the plan without shape validation (the error
slot is untouched). -/
theorem handleSubmitResponse_parse_handling (st : AppState) (resp : HttpResponse) (t : String)
    (hok : resp.ok = true) (ht : extractText resp.body = some t) :
    (∀ e, jsonParse t = Except.error e → e ≠ "" →
      (handleSubmitResponse st resp).error = some e ∧
      lifecycleOf (handleSubmitResponse st resp) = Lifecycle.error) ∧
    (∀ v, jsonParse t = Except.ok v →
      (handleSubmitResponse st resp).plan = some v ∧
      (handleSubmitResponse st resp).error = st.error) := by
  constructor
  · intro e hje hne
    have hmsg : (handleSubmitResponse st resp).error = some e := by
      unfold handleSubmitResponse
      simp [hok, ht, hje, errMessageOr_of_ne _ hne]
    refine ⟨hmsg, ?_⟩
    unfold lifecycleOf
    rw [handleSubmitResponse_isLoading, hmsg]
    simp
  · intro v hjv
    unfold handleSubmitResponse
    simp [hok, ht, hjv]

/-- Witness for C9's amended statement: a truncated payload surfaces
the parse failure message. -/
theorem handleSubmitResponse_parse_handling_witness :
    (handleSubmitResponse ⟨"hi", none, true, none⟩
      ⟨true, 200, "OK", ⟨some [⟨some ⟨[⟨some "\x7b"⟩]⟩⟩]⟩⟩).error =
        some "Unexpected end of JSON input" ∧
    lifecycleOf (handleSubmitResponse ⟨"hi", none, true, none⟩
      ⟨true, 200, "OK", ⟨some [⟨some ⟨[⟨some "\x7b"⟩]⟩⟩]⟩⟩) = Lifecycle.error :=
  (handleSubmitResponse_parse_handling ⟨"hi", none, true, none⟩
      ⟨true, 200, "OK", ⟨some [⟨some ⟨[⟨some "\x7b"⟩]⟩⟩]⟩⟩ "\x7b" rfl rfl).left
    "Unexpected end of JSON input" rfl (by decide)

/-- C9 (counterexample) -- The payload consisting of an empty JSON
object is valid JSON that does not match the Plan shape, yet a full
accepted submission ending with it reaches the success state with no
error stored: the code performs no shape validation. -/
theorem handleSubmitResponse_shape_mismatch_no_error :
    specPlanOfJson (JsonValue.obj []) = none ∧
    jsonParse "\x7b\x7d" = Except.ok (JsonValue.obj []) ∧
    (handleSubmitResponse (handleSubmit ⟨"add login", none, false, none⟩).fst
      ⟨true, 200, "OK", ⟨some [⟨some ⟨[⟨some "\x7b\x7d"⟩]⟩⟩]⟩⟩).error = none ∧
    lifecycleOf (handleSubmitResponse (handleSubmit ⟨"add login", none, false, none⟩).fst
      ⟨true, 200, "OK", ⟨some [⟨some ⟨[⟨some "\x7b\x7d"⟩]⟩⟩]⟩⟩) = Lifecycle.success :=
  ⟨rfl, rfl, rfl, rfl⟩

end DevPlanner
